import Mathlib

/-!
Shallow embedding of the POS system in src/services.py, src/models.py and
src/main.py, together with proofs about it.

Conventions of the embedding:
- Python float money amounts become exact rationals; the fixed tax factor
  0.10 is written literally as in the source.
- Python int quantities and stock counts become integers.
- The catalog dict keyed by product_id becomes a list of Product records,
  looked up by the product_id field; a mutation of a Product object in
  place becomes a pointwise update of the matching list entry, which
  realises the aliasing between SaleItem.product and the catalog entry.
- Timestamps, receipt printing and screen handling carry no verified
  content and are omitted from the records.
- Interactive loops are driven by an explicit script of operator inputs;
  an exhausted script corresponds to the real program blocking forever on
  input, and is modelled as producing no transaction.
-/

namespace POS

/-- services.Product: product_id, name, unit price and stock count. -/
structure Product where
  product_id : String
  name : String
  price : ℚ
  stock : ℤ
deriving DecidableEq

/-- services.POSService.products: the dict keyed by product_id, modelled
as a list whose entries are looked up through their product_id field. -/
abbrev Catalog := List Product

/-- services.POSService.get_product_by_id: self.products.get(product_id). -/
def get_product_by_id (cat : Catalog) (pid : String) : Option Product :=
  cat.find? (fun p => p.product_id == pid)

/-- Stock count read off the catalog for a given key, 0 when absent. -/
def stockOf (cat : Catalog) (pid : String) : ℤ :=
  ((get_product_by_id cat pid).map Product.stock).getD 0

/-- In-place mutation product.price = newPrice of the catalog entry with
the given key, as seen through every alias of that Product object. -/
def setPrice (cat : Catalog) (pid : String) (newPrice : ℚ) : Catalog :=
  cat.map (fun p => if p.product_id == pid then { p with price := newPrice } else p)

/-- services.SaleItem: the constructor stores the Product reference
(modelled by its catalog key), the quantity, and the subtotal
product.price * quantity captured at construction time. -/
structure SaleItem where
  product_id : String
  quantity : ℤ
  subtotal : ℚ
deriving DecidableEq

/-- services.SaleItem.__init__ applied to a live Product. -/
def SaleItem.make (p : Product) (quantity : ℤ) : SaleItem :=
  { product_id := p.product_id, quantity := quantity, subtotal := p.price * quantity }

/-- services.Sale: sale_id, item list, cached totals, payment fields.
The datetime field carries no verified content and is omitted. -/
structure Sale where
  sale_id : String
  items : List SaleItem
  subtotal : ℚ
  tax : ℚ
  total : ℚ
  payment_method : String
  payment_status : Bool
deriving DecidableEq

/-- services.Sale.__init__. -/
def Sale.init (sale_id : String) : Sale :=
  { sale_id := sale_id, items := [], subtotal := 0, tax := 0, total := 0,
    payment_method := "", payment_status := false }

/-- services.Sale._calculate_totals: subtotal is recomputed as the sum of
the item subtotals, tax as subtotal * 0.10, total as subtotal + tax. -/
def Sale.calculate_totals (s : Sale) : Sale :=
  let sub := (s.items.map SaleItem.subtotal).sum
  let tax := sub * 0.10
  { s with subtotal := sub, tax := tax, total := sub + tax }

/-- services.Sale.add_item: append a new SaleItem, then recompute totals. -/
def Sale.add_item (s : Sale) (p : Product) (quantity : ℤ) : Sale :=
  Sale.calculate_totals { s with items := s.items ++ [SaleItem.make p quantity] }

/-- services.Sale.process_payment: the method records the payment method
unconditionally, then settles exactly when amount is at least the total
(recording the method first does not affect the total the comparison
reads); the Boolean result is paired with the updated Sale. -/
def Sale.process_payment (s : Sale) (payment_method : String) (amount : ℚ) :
    Bool × Sale :=
  if s.total ≤ amount then
    (true, { s with payment_method := payment_method, payment_status := true })
  else
    (false, { s with payment_method := payment_method })

/-- Persisted line entry of services.Sale.to_dict: product_id, name and
price are read from the live Product object at serialization time, while
quantity and subtotal come from the SaleItem itself. -/
structure SaleRecordItem where
  product_id : String
  product_name : String
  quantity : ℤ
  price : ℚ
  subtotal : ℚ
deriving DecidableEq

/-- One entry of the items list of services.Sale.to_dict, with the live
Product object resolved through the current catalog. -/
def SaleItem.record (cat : Catalog) (it : SaleItem) : SaleRecordItem :=
  { product_id := it.product_id
    product_name := ((get_product_by_id cat it.product_id).map Product.name).getD ""
    quantity := it.quantity
    price := ((get_product_by_id cat it.product_id).map Product.price).getD 0
    subtotal := it.subtotal }

/-- Persisted form of a Sale, services.Sale.to_dict without the datetime. -/
structure SaleRecord where
  sale_id : String
  items : List SaleRecordItem
  subtotal : ℚ
  tax : ℚ
  total : ℚ
  payment_method : String
  payment_status : Bool
deriving DecidableEq

/-- services.Sale.to_dict against the current catalog. -/
def Sale.to_dict (cat : Catalog) (s : Sale) : SaleRecord :=
  { sale_id := s.sale_id
    items := s.items.map (SaleItem.record cat)
    subtotal := s.subtotal
    tax := s.tax
    total := s.total
    payment_method := s.payment_method
    payment_status := s.payment_status }

/-- Ledger file content: a dict from transaction id to persisted record,
modelled as an association list in insertion order. -/
abbrev Ledger (α : Type) := List (String × α)

/-- Python dict assignment data[key] = value: overwrite the entry in place
when the key is present, otherwise append it. -/
def ledgerInsert {α : Type} (led : Ledger α) (k : String) (v : α) : Ledger α :=
  if (led.find? (fun kv => kv.1 == k)).isSome then
    led.map (fun kv => if kv.1 == k then (k, v) else kv)
  else led ++ [(k, v)]

/-- Content of data/sales.json, keyed by sale_id. -/
abbrev SalesLedger := Ledger SaleRecord

/-- One operator input inside the item-collection loop of
services.POSService.process_sale: the sentinel done, the sentinel cancel,
or a product id together with the quantity entered for it. -/
inductive SaleInput where
  | done
  | cancel
  | add (pid : String) (quantity : ℤ)
deriving DecidableEq

/-- Item-collection loop of services.POSService.process_sale. An unknown
product id, a quantity at most 0 and a quantity exceeding the current
stock of the product are recoverable errors that re-prompt without
touching the sale; a valid entry appends the item; done hands the sale
on; cancel aborts with no sale. -/
def collectItems (cat : Catalog) : List SaleInput → Sale → Option Sale
  | [], _ => none
  | SaleInput.done :: _, sale => some sale
  | SaleInput.cancel :: _, _ => none
  | SaleInput.add pid qty :: rest, sale =>
    match get_product_by_id cat pid with
    | none => collectItems cat rest sale
    | some p =>
      if qty ≤ 0 then collectItems cat rest sale
      else if p.stock < qty then collectItems cat rest sale
      else collectItems cat rest (sale.add_item p qty)

/-- Payment loop of services.POSService.process_sale: each attempted
amount goes through Sale.process_payment; the first sufficient amount
settles the sale and reports change amount - total, an insufficient
amount re-prompts. -/
def paymentLoop (s : Sale) (payment_method : String) : List ℚ → Option (Sale × ℚ)
  | [] => none
  | a :: rest =>
    match s.process_payment payment_method a with
    | (true, s1) => some (s1, a - s1.total)
    | (false, s1) => paymentLoop s1 payment_method rest

/-- One execution of the loop body item.product.stock -= item.quantity,
acting through the alias on the catalog entry with the given key. -/
def decrementStock (cat : Catalog) (pid : String) (q : ℤ) : Catalog :=
  cat.map (fun p => if p.product_id == pid then { p with stock := p.stock - q } else p)

/-- The inventory-update loop of services.POSService.process_sale. -/
def commitStock (cat : Catalog) (items : List SaleItem) : Catalog :=
  items.foldl (fun c it => decrementStock c it.product_id it.quantity) cat

/-- services.POSService.process_sale. The generated sale id, the payment
method chosen in its selection loop and the operator inputs are
parameters; the result bundles what the method returns with the final
catalog and sales ledger (both in memory and as written to disk: the
method persists exactly these at its single commit point). -/
def process_sale (cat : Catalog) (ledger : SalesLedger) (sale_id : String)
    (script : List SaleInput) (payment_method : String) (amounts : List ℚ) :
    Option Sale × Catalog × SalesLedger :=
  match collectItems cat script (Sale.init sale_id) with
  | none => (none, cat, ledger)
  | some sale =>
    if sale.items.isEmpty then (none, cat, ledger)
    else
      match paymentLoop sale payment_method amounts with
      | none => (none, cat, ledger)
      | some (paid, _change) =>
        (some paid, commitStock cat paid.items,
          ledgerInsert ledger paid.sale_id (paid.to_dict (commitStock cat paid.items)))

/-- services.ReturnItem: the constructor stores the Product reference
(modelled by its catalog key), the quantity, the reason text and the
refund amount product.price * quantity captured at construction time. -/
structure ReturnItem where
  product_id : String
  quantity : ℤ
  reason : String
  refund_amount : ℚ
deriving DecidableEq

/-- services.ReturnItem.__init__ applied to a live Product. -/
def ReturnItem.make (p : Product) (quantity : ℤ) (reason : String) : ReturnItem :=
  { product_id := p.product_id, quantity := quantity, reason := reason,
    refund_amount := p.price * quantity }

/-- services.Return: return_id, the id of the original sale, the item
list and the accumulated refund amount. The datetime field is omitted. -/
structure Return where
  return_id : String
  original_sale_id : String
  items : List ReturnItem
  refund_amount : ℚ
deriving DecidableEq

/-- services.Return.__init__. -/
def Return.init (return_id original_sale_id : String) : Return :=
  { return_id := return_id, original_sale_id := original_sale_id,
    items := [], refund_amount := 0 }

/-- services.Return.add_item: append a new ReturnItem and add its refund
amount onto the running refund_amount (incremental, no recompute). -/
def Return.add_item (r : Return) (p : Product) (quantity : ℤ) (reason : String) : Return :=
  let item := ReturnItem.make p quantity reason
  { r with items := r.items ++ [item],
           refund_amount := r.refund_amount + item.refund_amount }

/-- Recompute-from-scratch refund policy, stated from the words of the
spec for comparison with the incremental field: the sum of the per-line
refund amounts over the current items of the Return. -/
def Return.refundRecompute (r : Return) : ℚ :=
  (r.items.map ReturnItem.refund_amount).sum

/-- Persisted line entry of services.Return.to_dict: product_id and name
are read from the live Product object at serialization time, quantity,
refund and reason come from the ReturnItem itself. -/
structure ReturnRecordItem where
  product_id : String
  product_name : String
  quantity : ℤ
  refund : ℚ
  reason : String
deriving DecidableEq

/-- One entry of the items list of services.Return.to_dict, with the live
Product object resolved through the current catalog. -/
def ReturnItem.record (cat : Catalog) (it : ReturnItem) : ReturnRecordItem :=
  { product_id := it.product_id
    product_name := ((get_product_by_id cat it.product_id).map Product.name).getD ""
    quantity := it.quantity
    refund := it.refund_amount
    reason := it.reason }

/-- Persisted form of a Return, services.Return.to_dict without the
datetime. -/
structure ReturnRecord where
  return_id : String
  original_sale_id : String
  items : List ReturnRecordItem
  refund_amount : ℚ
deriving DecidableEq

/-- services.Return.to_dict against the current catalog. -/
def Return.to_dict (cat : Catalog) (r : Return) : ReturnRecord :=
  { return_id := r.return_id
    original_sale_id := r.original_sale_id
    items := r.items.map (ReturnItem.record cat)
    refund_amount := r.refund_amount }

/-- Content of data/returns.json, keyed by return_id. -/
abbrev ReturnsLedger := Ledger ReturnRecord

/-- services.ReturnItem.start_return_process: the only return entry point
present in src, it prints an under-development banner and returns None
unconditionally, taking no workflow action whatever the ledger holds. -/
def start_return_process (_ : ReturnItem) : Option Return := none

/-- One operator input inside the return item-collection loop: the
sentinel cancel, the sentinel finish, or the 1-based position of a line
of the original sale together with the quantity to return and an
optional reason (the empty string standing for an omitted reason). -/
inductive ReturnInput where
  | cancel
  | finish
  | pick (line : ℕ) (quantity : ℤ) (reason : String)
deriving DecidableEq

/-- Placeholder reason used when the operator leaves the reason blank. -/
def defaultReason : String := "No reason provided"

/-- Modelled from the spec: the COLLECTING_RETURN_ITEMS loop of the
Return Workflow of section 4.5, whose implementation
POSService.process_return is not under src (main.py calls it and
services.py holds only the start_return_process stub). An out-of-range
line position, a product missing from the catalog and a quantity outside
1 .. the original line quantity are recoverable errors that re-prompt;
an accepted entry appends a return line; finish with no accumulated
items aborts; cancel aborts unconditionally. -/
def collectReturnItems (cat : Catalog) (orig : SaleRecord) :
    List ReturnInput → Return → Option Return
  | [], _ => none
  | ReturnInput.cancel :: _, _ => none
  | ReturnInput.finish :: _, r => if r.items.isEmpty then none else some r
  | ReturnInput.pick i qty reason :: rest, r =>
    if i < 1 then collectReturnItems cat orig rest r
    else
      match orig.items.get? (i - 1) with
      | none => collectReturnItems cat orig rest r
      | some line =>
        match get_product_by_id cat line.product_id with
        | none => collectReturnItems cat orig rest r
        | some p =>
          if qty < 1 then collectReturnItems cat orig rest r
          else if line.quantity < qty then collectReturnItems cat orig rest r
          else
            collectReturnItems cat orig rest
              (r.add_item p qty (if reason = "" then defaultReason else reason))

/-- One execution of the settle-loop body item.product.stock +=
item.quantity of the Return Workflow, acting through the alias on the
catalog entry with the given key. -/
def incrementStock (cat : Catalog) (pid : String) (q : ℤ) : Catalog :=
  cat.map (fun p => if p.product_id == pid then { p with stock := p.stock + q } else p)

/-- The stock-restoring loop run when a Return settles. -/
def commitReturnStock (cat : Catalog) (items : List ReturnItem) : Catalog :=
  items.foldl (fun c it => incrementStock c it.product_id it.quantity) cat

/-- Modelled from the spec: POSService.process_return, the Return
Workflow of section 4.5, absent from src. With an empty sales ledger it
fails immediately; otherwise the supplied sale id is looked up in the
ledger (an absent id producing no return here, standing for the
re-prompt); return lines are collected against the original record;
on an affirmative confirmation the stock of each returned product is
incremented and the Return record is persisted to the returns ledger. -/
def process_return (cat : Catalog) (salesLedger : SalesLedger)
    (returnsLedger : ReturnsLedger) (return_id : String) (sale_id : String)
    (script : List ReturnInput) (confirm : Bool) :
    Option Return × Catalog × ReturnsLedger :=
  if salesLedger.isEmpty then (none, cat, returnsLedger)
  else
    match salesLedger.find? (fun kv => kv.1 == sale_id) with
    | none => (none, cat, returnsLedger)
    | some kv =>
      match collectReturnItems cat kv.2 script (Return.init return_id sale_id) with
      | none => (none, cat, returnsLedger)
      | some r =>
        if confirm then
          (some r, commitReturnStock cat r.items,
            ledgerInsert returnsLedger r.return_id (r.to_dict (commitReturnStock cat r.items)))
        else (none, cat, returnsLedger)

/-- Total quantity a sale takes of a given product over all of its line
items (several line items may reference the same product). -/
def saleQty (items : List SaleItem) (pid : String) : ℤ :=
  ((items.filter (fun it => it.product_id == pid)).map SaleItem.quantity).sum

/-- Total quantity a return restores of a given product over all of its
line items. -/
def returnQty (items : List ReturnItem) (pid : String) : ℤ :=
  ((items.filter (fun it => it.product_id == pid)).map ReturnItem.quantity).sum

/-- Sale built by a sequence of add_item calls on a fresh Sale, as the
workflow does during item collection. -/
def buildSale (sale_id : String) (adds : List (Product × ℤ)) : Sale :=
  adds.foldl (fun s a => s.add_item a.1 a.2) (Sale.init sale_id)

/-- Return built by a sequence of add_item calls on a fresh Return. -/
def buildReturn (return_id original_sale_id : String)
    (adds : List (Product × ℤ × String)) : Return :=
  adds.foldl (fun r a => r.add_item a.1 a.2.1 a.2.2)
    (Return.init return_id original_sale_id)

/-- services.POSService._load_inventory when data/inventory.json does not
exist: the sample products it seeds, persists and loads back. -/
def sample_products : Catalog :=
  [ ⟨"001", "Apple", 1.50, 100⟩,
    ⟨"002", "Banana", 0.75, 150⟩,
    ⟨"003", "Orange", 1.20, 80⟩,
    ⟨"004", "Milk", 2.50, 50⟩ ]

/-- Total inventory value reported by services.POSService.show_inventory:
the accumulated sum of price * stock over all products. -/
def show_inventory_total (cat : Catalog) : ℚ :=
  (cat.map (fun p => p.price * (p.stock : ℚ))).sum

/-! Helper lemmas about catalog lookup and pointwise catalog updates. -/

lemma get_product_id {cat : Catalog} {pid : String} {p : Product}
    (h : get_product_by_id cat pid = some p) : p.product_id = pid := by
  have := List.find?_some h
  simpa using this

lemma get_product_mem {cat : Catalog} {pid : String} {p : Product}
    (h : get_product_by_id cat pid = some p) : p ∈ cat :=
  List.mem_of_find?_eq_some h

lemma get_product_map (cat : Catalog) (f : Product → Product)
    (hf : ∀ p, (f p).product_id = p.product_id) (pid : String) :
    get_product_by_id (cat.map f) pid = (get_product_by_id cat pid).map f := by
  unfold get_product_by_id
  rw [List.find?_map]
  have hpred : ((fun p => p.product_id == pid) ∘ f)
      = (fun p : Product => p.product_id == pid) := by
    funext p
    simp [Function.comp, hf]
  rw [hpred]

/-- Pointwise stock update of the catalog entry with key k, the common
shape of decrementStock and incrementStock. -/
def adjustStock (cat : Catalog) (k : String) (g : ℤ → ℤ) : Catalog :=
  cat.map (fun p => if p.product_id == k then { p with stock := g p.stock } else p)

lemma decrementStock_eq (cat : Catalog) (k : String) (q : ℤ) :
    decrementStock cat k q = adjustStock cat k (fun s => s - q) := rfl

lemma incrementStock_eq (cat : Catalog) (k : String) (q : ℤ) :
    incrementStock cat k q = adjustStock cat k (fun s => s + q) := rfl

lemma get_product_adjustStock (cat : Catalog) (k : String) (g : ℤ → ℤ) (pid : String) :
    get_product_by_id (adjustStock cat k g) pid
      = (get_product_by_id cat pid).map
          (fun p => if p.product_id == k then { p with stock := g p.stock } else p) :=
  get_product_map cat _ (fun p => by by_cases h : p.product_id == k <;> simp [h]) pid

lemma isSome_get_product_adjustStock (cat : Catalog) (k : String) (g : ℤ → ℤ)
    (pid : String) :
    (get_product_by_id (adjustStock cat k g) pid).isSome
      = (get_product_by_id cat pid).isSome := by
  rw [get_product_adjustStock]
  cases get_product_by_id cat pid <;> rfl

lemma stockOf_adjustStock (cat : Catalog) (k : String) (g : ℤ → ℤ) (pid : String)
    (hpres : pid = k → (get_product_by_id cat pid).isSome) :
    stockOf (adjustStock cat k g) pid
      = if pid = k then g (stockOf cat pid) else stockOf cat pid := by
  unfold stockOf
  rw [get_product_adjustStock]
  cases h : get_product_by_id cat pid with
  | none =>
    by_cases hk : pid = k
    · exact absurd (hpres hk) (by simp [h])
    · simp [hk]
  | some p =>
    have hid : p.product_id = pid := get_product_id h
    by_cases hk : pid = k
    · subst hk; simp [hid]
    · simp [hid, hk]

lemma stockOf_nonneg (cat : Catalog) (h : ∀ p ∈ cat, 0 ≤ p.stock) (pid : String) :
    0 ≤ stockOf cat pid := by
  unfold stockOf
  cases hg : get_product_by_id cat pid with
  | none => simp
  | some p => simpa using h p (get_product_mem hg)

/-! Helper lemmas about per-product quantities of a transaction. -/

lemma saleQty_nil (pid : String) : saleQty [] pid = 0 := rfl

lemma saleQty_cons (it : SaleItem) (rest : List SaleItem) (pid : String) :
    saleQty (it :: rest) pid
      = (if it.product_id = pid then it.quantity else 0) + saleQty rest pid := by
  unfold saleQty
  rw [List.filter_cons]
  by_cases h : it.product_id = pid <;> simp [h]

lemma saleQty_eq_zero (items : List SaleItem) (pid : String)
    (h : pid ∉ items.map SaleItem.product_id) : saleQty items pid = 0 := by
  induction items with
  | nil => rfl
  | cons it rest ih =>
    simp only [List.map_cons, List.mem_cons, not_or] at h
    rw [saleQty_cons, if_neg (fun he => h.1 he.symm), ih h.2, zero_add]

lemma returnQty_nil (pid : String) : returnQty [] pid = 0 := rfl

lemma returnQty_cons (it : ReturnItem) (rest : List ReturnItem) (pid : String) :
    returnQty (it :: rest) pid
      = (if it.product_id = pid then it.quantity else 0) + returnQty rest pid := by
  unfold returnQty
  rw [List.filter_cons]
  by_cases h : it.product_id = pid <;> simp [h]

lemma saleQty_of_nodup (items : List SaleItem)
    (hnd : (items.map SaleItem.product_id).Nodup) (pid : String) :
    saleQty items pid = 0
      ∨ ∃ it, it ∈ items ∧ it.product_id = pid ∧ saleQty items pid = it.quantity := by
  induction items with
  | nil => exact Or.inl rfl
  | cons it rest ih =>
    simp only [List.map_cons, List.nodup_cons] at hnd
    by_cases hk : it.product_id = pid
    · right
      have hz : saleQty rest pid = 0 :=
        saleQty_eq_zero rest pid (fun hm => hnd.1 (hk ▸ hm))
      exact ⟨it, List.mem_cons_self it rest, hk, by rw [saleQty_cons, if_pos hk, hz, add_zero]⟩
    · rcases ih hnd.2 with h0 | ⟨x, hx, hxp, hxq⟩
      · left; rw [saleQty_cons, if_neg hk, h0, add_zero]
      · right
        exact ⟨x, List.mem_cons_of_mem it hx, hxp,
          by rw [saleQty_cons, if_neg hk, zero_add, hxq]⟩

/-! Helper lemmas about the stock commit loops. -/

lemma stockOf_commitStock (items : List SaleItem) :
    ∀ (cat : Catalog),
      (∀ it ∈ items, (get_product_by_id cat it.product_id).isSome) →
      ∀ pid, stockOf (commitStock cat items) pid = stockOf cat pid - saleQty items pid := by
  induction items with
  | nil => intro cat _ pid; simp [commitStock, saleQty_nil]
  | cons it rest ih =>
    intro cat hpres pid
    have hstep : commitStock cat (it :: rest)
        = commitStock (decrementStock cat it.product_id it.quantity) rest := rfl
    rw [hstep, ih _ (fun x hx => by
        rw [decrementStock_eq, isSome_get_product_adjustStock]
        exact hpres x (List.mem_cons_of_mem it hx)) pid]
    rw [decrementStock_eq, stockOf_adjustStock cat it.product_id _ pid
      (fun hk => by rw [hk]; exact hpres it (List.mem_cons_self it rest))]
    rw [saleQty_cons]
    by_cases hk : pid = it.product_id
    · rw [if_pos hk, if_pos hk.symm]; ring
    · rw [if_neg hk, if_neg (fun he => hk he.symm), zero_add]

lemma stockOf_commitReturnStock (items : List ReturnItem) :
    ∀ (cat : Catalog),
      (∀ it ∈ items, (get_product_by_id cat it.product_id).isSome) →
      ∀ pid, stockOf (commitReturnStock cat items) pid
        = stockOf cat pid + returnQty items pid := by
  induction items with
  | nil => intro cat _ pid; simp [commitReturnStock, returnQty_nil]
  | cons it rest ih =>
    intro cat hpres pid
    have hstep : commitReturnStock cat (it :: rest)
        = commitReturnStock (incrementStock cat it.product_id it.quantity) rest := rfl
    rw [hstep, ih _ (fun x hx => by
        rw [incrementStock_eq, isSome_get_product_adjustStock]
        exact hpres x (List.mem_cons_of_mem it hx)) pid]
    rw [incrementStock_eq, stockOf_adjustStock cat it.product_id _ pid
      (fun hk => by rw [hk]; exact hpres it (List.mem_cons_self it rest))]
    rw [returnQty_cons]
    by_cases hk : pid = it.product_id
    · rw [if_pos hk, if_pos hk.symm]; ring
    · rw [if_neg hk, if_neg (fun he => hk he.symm), zero_add]

/-! Helper lemmas about add_item and the totals recomputation. -/

lemma add_item_items (s : Sale) (p : Product) (q : ℤ) :
    (s.add_item p q).items = s.items ++ [SaleItem.make p q] := rfl

lemma add_item_recomputes (s : Sale) (p : Product) (q : ℤ) :
    (s.add_item p q).subtotal = (((s.add_item p q).items).map SaleItem.subtotal).sum
    ∧ (s.add_item p q).tax = (s.add_item p q).subtotal * 0.10
    ∧ (s.add_item p q).total = (s.add_item p q).subtotal + (s.add_item p q).tax := by
  refine ⟨rfl, rfl, rfl⟩

lemma foldl_add_item_items (adds : List (Product × ℤ)) :
    ∀ (s : Sale),
      (adds.foldl (fun s a => s.add_item a.1 a.2) s).items
        = s.items ++ adds.map (fun a => SaleItem.make a.1 a.2) := by
  induction adds with
  | nil => intro s; simp
  | cons a rest ih =>
    intro s
    rw [List.foldl_cons, ih, add_item_items, List.map_cons, List.append_assoc,
      List.singleton_append]

lemma buildSale_items (sid : String) (adds : List (Product × ℤ)) :
    (buildSale sid adds).items = adds.map (fun a => SaleItem.make a.1 a.2) := by
  rw [buildSale, foldl_add_item_items]
  rfl

lemma buildSale_recomputed (sid : String) (adds : List (Product × ℤ)) :
    (buildSale sid adds).subtotal = (((buildSale sid adds).items).map SaleItem.subtotal).sum
    ∧ (buildSale sid adds).tax = (buildSale sid adds).subtotal * 0.10
    ∧ (buildSale sid adds).total
        = (buildSale sid adds).subtotal + (buildSale sid adds).tax := by
  cases adds using List.reverseRecOn with
  | nil =>
    refine ⟨by norm_num [buildSale, Sale.init], by norm_num [buildSale, Sale.init],
      by norm_num [buildSale, Sale.init]⟩
  | append_singleton front a _ =>
    rw [buildSale, List.foldl_append, List.foldl_cons, List.foldl_nil]
    exact add_item_recomputes _ a.1 a.2

lemma make_subtotal (p : Product) (q : ℤ) :
    (SaleItem.make p q).subtotal = p.price * q := rfl

/-- C5: after every addition of a Line Item, the totals of the Sale are
those recomputed from scratch over the current item set: the subtotal is
the sum of the per-item subtotals (each captured as price times quantity
at entry, as the last conjuncts state over a whole addition sequence),
the tax is subtotal times 0.10 and the total is subtotal plus tax. The
first three conjuncts hold after add_item on an arbitrary prior Sale
state, so the totals are never stale. -/
theorem C5_totals_recomputed (s : Sale) (p : Product) (q : ℤ)
    (sid : String) (adds : List (Product × ℤ)) :
    (s.add_item p q).subtotal = (((s.add_item p q).items).map SaleItem.subtotal).sum
    ∧ (s.add_item p q).tax = (s.add_item p q).subtotal * 0.10
    ∧ (s.add_item p q).total = (s.add_item p q).subtotal + (s.add_item p q).tax
    ∧ (buildSale sid adds).subtotal
        = (adds.map (fun a => a.1.price * (a.2 : ℚ))).sum
    ∧ (buildSale sid adds).tax = (buildSale sid adds).subtotal * 0.10
    ∧ (buildSale sid adds).total
        = (buildSale sid adds).subtotal + (buildSale sid adds).tax := by
  obtain ⟨h1, h2, h3⟩ := add_item_recomputes s p q
  obtain ⟨g1, g2, g3⟩ := buildSale_recomputed sid adds
  refine ⟨h1, h2, h3, ?_, g2, g3⟩
  rw [g1, buildSale_items, List.map_map]
  rfl

/-- C9: the model-level add_item operations of Sale and Return validate
nothing: for every integer quantity, the negative and zero ones included,
the line is appended and its price times quantity enters the totals. The
quantity and stock guards live only in the workflow loop (collectItems),
so a caller invoking add_item directly bypasses them. -/
theorem C9_model_ops_unvalidated (s : Sale) (r : Return) (p : Product) (q : ℤ)
    (reason : String) :
    (s.add_item p q).items = s.items ++ [SaleItem.make p q]
    ∧ (s.add_item p q).subtotal = (s.items.map SaleItem.subtotal).sum + p.price * q
    ∧ (r.add_item p q reason).items = r.items ++ [ReturnItem.make p q reason]
    ∧ (r.add_item p q reason).refund_amount = r.refund_amount + p.price * q := by
  refine ⟨rfl, ?_, rfl, rfl⟩
  show ((s.items ++ [SaleItem.make p q]).map SaleItem.subtotal).sum = _
  rw [List.map_append, List.sum_append, List.map_singleton, List.sum_singleton]
  rfl

/-! Helper lemmas for the Return refund accumulation. -/

lemma return_add_item_refund (r : Return) (p : Product) (q : ℤ) (reason : String) :
    (r.add_item p q reason).items = r.items ++ [ReturnItem.make p q reason]
    ∧ (r.add_item p q reason).refund_amount
        = r.refund_amount + (ReturnItem.make p q reason).refund_amount :=
  ⟨rfl, rfl⟩

lemma foldl_return_invariant (adds : List (Product × ℤ × String)) :
    ∀ (r : Return), r.refund_amount = r.refundRecompute →
      (adds.foldl (fun r a => r.add_item a.1 a.2.1 a.2.2) r).refund_amount
        = (adds.foldl (fun r a => r.add_item a.1 a.2.1 a.2.2) r).refundRecompute := by
  induction adds with
  | nil => intro r h; exact h
  | cons a rest ih =>
    intro r h
    rw [List.foldl_cons]
    refine ih _ ?_
    obtain ⟨hi, hr⟩ := return_add_item_refund r a.1 a.2.1 a.2.2
    simp only [Return.refundRecompute] at h ⊢
    rw [hi, List.map_append, List.sum_append, hr, h, List.map_singleton,
      List.sum_singleton]

/-- C10: the incrementally accumulated refund_amount of a Return equals
the refund recomputed from scratch as the sum of the per-line refund
amounts, after every sequence of add_item calls on a fresh Return: the
incremental and the recompute policies coincide. -/
theorem C10_refund_incremental_eq_recompute (return_id original_sale_id : String)
    (adds : List (Product × ℤ × String)) :
    (buildReturn return_id original_sale_id adds).refund_amount
      = (buildReturn return_id original_sale_id adds).refundRecompute := by
  rw [buildReturn]
  exact foldl_return_invariant adds _ rfl

/-- C3 counterexample: the seeded default catalog holds 4 products, not
8, and none of the claimed Bread, Egg, Water, Chocolate entries exists. -/
theorem C3_counterexample :
    sample_products.length = 4
    ∧ "Bread" ∉ sample_products.map Product.name
    ∧ "Egg" ∉ sample_products.map Product.name
    ∧ "Water" ∉ sample_products.map Product.name
    ∧ "Chocolate" ∉ sample_products.map Product.name := by
  refine ⟨rfl, ?_, ?_, ?_, ?_⟩ <;> simp [sample_products]

/-- C3 amended: on a fresh environment the loader seeds exactly the 4
default products Apple, Banana, Orange and Milk, each with a non-zero
price and positive stock as the explicit price and stock lists show, and
the inventory view reports the total value, the sum of price times stock
over the seeded entries, 483.50. -/
theorem C3_amended :
    sample_products.map Product.name = ["Apple", "Banana", "Orange", "Milk"]
    ∧ sample_products.map Product.price = [1.50, 0.75, 1.20, 2.50]
    ∧ sample_products.map Product.stock = [100, 150, 80, 50]
    ∧ show_inventory_total sample_products
        = (sample_products.map (fun p => p.price * (p.stock : ℚ))).sum
    ∧ show_inventory_total sample_products = 483.50 := by
  refine ⟨rfl, rfl, rfl, rfl, ?_⟩
  norm_num [show_inventory_total, sample_products]

/-- Catalog, Product and SaleItem used in the C4 scenario. -/
def c4Product : Product := ⟨"001", "Apple", 2, 10⟩

def c4Cat : Catalog := [c4Product]

def c4Item : SaleItem := SaleItem.make c4Product 3

/-- C4 counterexample: after the catalog price of the product is mutated
from 2 to 5, the persisted line entry produced for a SaleItem added
before the mutation carries price 5, not the price 2 in force at entry
time: the price field of the persisted record is altered by the later
catalog mutation, so the claim that no field changes is false. The
captured subtotal 6 does stay unchanged. -/
theorem C4_counterexample :
    (SaleItem.record c4Cat c4Item).price = 2
    ∧ (SaleItem.record (setPrice c4Cat "001" 5) c4Item).price = 5
    ∧ (SaleItem.record (setPrice c4Cat "001" 5) c4Item).subtotal = 6
    ∧ SaleItem.record (setPrice c4Cat "001" 5) c4Item ≠ SaleItem.record c4Cat c4Item := by
  refine ⟨?_, ?_, ?_, ?_⟩ <;>
    norm_num [SaleItem.record, c4Cat, c4Item, c4Product, SaleItem.make, setPrice,
      get_product_by_id, SaleRecordItem.mk.injEq]

/-- C4 amended: only the monetary subtotal of a Line Item is captured at
construction time; the unit-price field of the persisted record is read
from the live catalog Product at serialization time, so mutating the
catalog price after the item is added leaves the subtotal unchanged but
changes the price field of the persisted record to the new price. -/
theorem C4_amended (cat : Catalog) (p : Product) (q : ℤ) (newPrice : ℚ)
    (h : get_product_by_id cat p.product_id = some p) :
    (SaleItem.record (setPrice cat p.product_id newPrice) (SaleItem.make p q)).subtotal
        = p.price * q
    ∧ (SaleItem.record (setPrice cat p.product_id newPrice) (SaleItem.make p q)).price
        = newPrice
    ∧ (SaleItem.record cat (SaleItem.make p q)).price = p.price := by
  have hmap : get_product_by_id (setPrice cat p.product_id newPrice) p.product_id
      = some { p with price := newPrice } := by
    have hset : setPrice cat p.product_id newPrice
        = cat.map (fun x => if x.product_id == p.product_id
            then { x with price := newPrice } else x) := rfl
    rw [hset, get_product_map cat _
      (fun x => by by_cases hx : x.product_id == p.product_id <;> simp [hx]), h]
    simp
  refine ⟨rfl, ?_, ?_⟩
  · show ((get_product_by_id (setPrice cat p.product_id newPrice)
        (SaleItem.make p q).product_id).map Product.price).getD 0 = newPrice
    have : (SaleItem.make p q).product_id = p.product_id := rfl
    rw [this, hmap]
    rfl
  · show ((get_product_by_id cat (SaleItem.make p q).product_id).map Product.price).getD 0
        = p.price
    have : (SaleItem.make p q).product_id = p.product_id := rfl
    rw [this, h]
    rfl

/-- C4 witness: the amended statement evaluated on the concrete scenario
of the counterexample. -/
theorem C4_amended_witness :
    (SaleItem.record (setPrice c4Cat c4Product.product_id 5)
        (SaleItem.make c4Product 3)).subtotal = c4Product.price * 3
    ∧ (SaleItem.record (setPrice c4Cat c4Product.product_id 5)
        (SaleItem.make c4Product 3)).price = 5
    ∧ (SaleItem.record c4Cat (SaleItem.make c4Product 3)).price = c4Product.price :=
  C4_amended c4Cat c4Product 3 5 (by norm_num [c4Cat, c4Product, get_product_by_id])

/-- C8: payment settles a Sale exactly when the tendered amount reaches
the total: process_payment answers true, and sets the payment-settled
flag of a not-yet-settled sale, exactly when total is at most amount; a
sufficient first amount makes the payment loop report change amount
minus total, while an insufficient amount makes the loop re-prompt on
the remaining amounts with only the payment method recorded. -/
theorem C8_payment_threshold (s : Sale) (m : String) (a : ℚ) (rest : List ℚ) :
    ((s.process_payment m a).1 = true ↔ s.total ≤ a)
    ∧ (s.payment_status = false →
        ((s.process_payment m a).2.payment_status = true ↔ s.total ≤ a))
    ∧ (s.total ≤ a →
        paymentLoop s m (a :: rest) = some ((s.process_payment m a).2, a - s.total))
    ∧ (¬ s.total ≤ a →
        paymentLoop s m (a :: rest)
          = paymentLoop { s with payment_method := m } m rest) := by
  by_cases h : s.total ≤ a
  · refine ⟨?_, ?_, ?_, ?_⟩ <;> simp [Sale.process_payment, paymentLoop, h]
  · refine ⟨?_, fun hps => ?_, ?_, ?_⟩ <;>
      simp [Sale.process_payment, paymentLoop, h]
    exact hps

/-- Sale used in the C8 scenario: 3 units at price 5, for a total of
16.50 after tax. -/
def c8Sale : Sale := buildSale "SALE-C8" [(⟨"010", "Widget", 5, 100⟩, 3)]

/-- C8 witness: the scenario sale has total 16.50; tendering 20 settles
it with change 3.50, tendering 10 first re-prompts. -/
theorem C8_payment_threshold_witness :
    ((c8Sale.process_payment "Cash" 20).1 = true ↔ c8Sale.total ≤ 20)
    ∧ ((c8Sale.process_payment "Cash" 20).2.payment_status = true ↔ c8Sale.total ≤ 20)
    ∧ paymentLoop c8Sale "Cash" [20]
        = some ((c8Sale.process_payment "Cash" 20).2, 20 - c8Sale.total)
    ∧ paymentLoop c8Sale "Cash" (10 :: [20])
        = paymentLoop { c8Sale with payment_method := "Cash" } "Cash" [20] := by
  obtain ⟨h1, h2, h3, _⟩ := C8_payment_threshold c8Sale "Cash" 20 []
  obtain ⟨_, _, _, h4⟩ := C8_payment_threshold c8Sale "Cash" 10 [20]
  refine ⟨h1, h2 ?_, h3 ?_, h4 ?_⟩ <;>
    norm_num [c8Sale, buildSale, Sale.init, Sale.add_item, Sale.calculate_totals,
      SaleItem.make]

/-! Helper lemmas about the item-collection and payment phases of
process_sale. -/

/-- Facts the collection loop guarantees for every accepted line item:
positive quantity, quantity bounded by the stock the catalog showed at
entry time, and a product present in the catalog. -/
def validItem (cat : Catalog) (it : SaleItem) : Prop :=
  0 < it.quantity ∧ it.quantity ≤ stockOf cat it.product_id
    ∧ (get_product_by_id cat it.product_id).isSome = true

lemma collectItems_valid (cat : Catalog) (script : List SaleInput) :
    ∀ (s0 s : Sale),
      collectItems cat script s0 = some s →
      (∀ it ∈ s0.items, validItem cat it) →
      ∀ it ∈ s.items, validItem cat it := by
  induction script with
  | nil => intro s0 s h; simp [collectItems] at h
  | cons e rest ih =>
    intro s0 s h h0
    cases e with
    | done =>
      simp only [collectItems, Option.some.injEq] at h
      subst h; exact h0
    | cancel => simp [collectItems] at h
    | add pid qty =>
      simp only [collectItems] at h
      split at h
      · exact ih _ _ h h0
      · rename_i p hg
        split at h
        · exact ih _ _ h h0
        · rename_i h1
          split at h
          · exact ih _ _ h h0
          · rename_i h2
            refine ih _ _ h ?_
            intro it hit
            rw [add_item_items] at hit
            rcases List.mem_append.mp hit with hold | hnew
            · exact h0 it hold
            · have hmk : it = SaleItem.make p qty := List.mem_singleton.mp hnew
              subst hmk
              have hid : p.product_id = pid := get_product_id hg
              have hpid : (SaleItem.make p qty).product_id = pid := hid
              refine ⟨not_le.mp h1, ?_, ?_⟩
              · show qty ≤ stockOf cat (SaleItem.make p qty).product_id
                rw [hpid]
                unfold stockOf
                rw [hg]
                exact not_lt.mp h2
              · show (get_product_by_id cat (SaleItem.make p qty).product_id).isSome = true
                rw [hpid, hg]
                rfl

lemma paymentLoop_items (amts : List ℚ) :
    ∀ (s : Sale) (m : String) (s1 : Sale) (c : ℚ),
      paymentLoop s m amts = some (s1, c) → s1.items = s.items := by
  induction amts with
  | nil => intro s m s1 c h; simp [paymentLoop] at h
  | cons a rest ih =>
    intro s m s1 c h
    by_cases hp : s.total ≤ a
    · simp only [paymentLoop, Sale.process_payment, if_pos hp, Option.some.injEq,
        Prod.mk.injEq] at h
      rw [← h.1]
    · simp only [paymentLoop, Sale.process_payment, if_neg hp] at h
      have hrec := ih _ m s1 c h
      simpa using hrec

lemma process_sale_some {cat : Catalog} {ledger : SalesLedger} {sale_id : String}
    {script : List SaleInput} {m : String} {amounts : List ℚ}
    {sale : Sale} {cat1 : Catalog} {led1 : SalesLedger}
    (h : process_sale cat ledger sale_id script m amounts = (some sale, cat1, led1)) :
    ∃ s0 c, collectItems cat script (Sale.init sale_id) = some s0
      ∧ s0.items.isEmpty = false
      ∧ paymentLoop s0 m amounts = some (sale, c)
      ∧ cat1 = commitStock cat sale.items
      ∧ led1 = ledgerInsert ledger sale.sale_id (sale.to_dict cat1) := by
  unfold process_sale at h
  split at h
  · simp at h
  · rename_i s0 hc
    split at h
    · simp at h
    · rename_i hemp
      split at h
      · simp at h
      · rename_i pr paid chg hp
        simp only [Prod.mk.injEq, Option.some.injEq] at h
        obtain ⟨h1, h2, h3⟩ := h
        subst h1
        exact ⟨s0, chg, hc, by simpa using hemp, hp, h2.symm, by rw [← h3, h2]⟩

/-- C1 counterexample: with one product at stock 1, a sale holding two
line items of quantity 1 for that same product passes the per-line
entry check both times (stock is only read, not yet decremented, during
collection), the sale commits successfully, and the committed stock is
-1: the per-line check does not make a negative result unreachable when
one product appears in several line items. -/
theorem C1_counterexample :
    ((process_sale [⟨"001", "Apple", 1, 1⟩] [] "S1"
        [SaleInput.add "001" 1, SaleInput.add "001" 1, SaleInput.done]
        "Cash" [10]).1).isSome = true
    ∧ stockOf (process_sale [⟨"001", "Apple", 1, 1⟩] [] "S1"
        [SaleInput.add "001" 1, SaleInput.add "001" 1, SaleInput.done]
        "Cash" [10]).2.1 "001" = -1 := by
  constructor <;>
    norm_num [process_sale, collectItems, paymentLoop, Sale.process_payment,
      Sale.init, Sale.add_item, Sale.calculate_totals, SaleItem.make,
      get_product_by_id, commitStock, decrementStock, stockOf, List.find?]

/-- C1 amended: for every committed Sale, each line item passed the
entry-time check (positive quantity, at most the stock the catalog held
before the commit), and each product ends with its pre-commit stock
minus the TOTAL quantity over all line items of the sale that reference
it; when every product appears in at most one line item (and stocks
start non-negative), no stock is negative after the commit — with
repeated products the entry check alone does not prevent a negative
stock, as the counterexample shows. -/
theorem C1_amended (cat : Catalog) (ledger : SalesLedger) (sale_id : String)
    (script : List SaleInput) (m : String) (amounts : List ℚ)
    (sale : Sale) (cat1 : Catalog) (led1 : SalesLedger)
    (hrun : process_sale cat ledger sale_id script m amounts = (some sale, cat1, led1)) :
    (∀ it ∈ sale.items, 0 < it.quantity ∧ it.quantity ≤ stockOf cat it.product_id)
    ∧ (∀ pid, stockOf cat1 pid = stockOf cat pid - saleQty sale.items pid)
    ∧ ((sale.items.map SaleItem.product_id).Nodup →
        (∀ p ∈ cat, 0 ≤ p.stock) → ∀ pid, 0 ≤ stockOf cat1 pid) := by
  obtain ⟨s0, c, hc, hemp, hp, hcat, hled⟩ := process_sale_some hrun
  have hitems : sale.items = s0.items := paymentLoop_items amounts s0 m sale c hp
  have hval : ∀ it ∈ sale.items, validItem cat it := by
    rw [hitems]
    exact collectItems_valid cat script _ _ hc
      (by intro it hit; simp [Sale.init] at hit)
  have hpres : ∀ it ∈ sale.items, (get_product_by_id cat it.product_id).isSome :=
    fun it hit => by rw [(hval it hit).2.2]
  have heq : ∀ pid, stockOf cat1 pid = stockOf cat pid - saleQty sale.items pid := by
    intro pid
    rw [hcat]
    exact stockOf_commitStock sale.items cat hpres pid
  refine ⟨fun it hit => ⟨(hval it hit).1, (hval it hit).2.1⟩, heq, ?_⟩
  intro hnd hst pid
  rcases saleQty_of_nodup sale.items hnd pid with h0 | ⟨it, hit, hip, hq⟩
  · rw [heq pid, h0, sub_zero]
    exact stockOf_nonneg cat hst pid
  · rw [heq pid, hq]
    have hb := (hval it hit).2.1
    rw [hip] at hb
    omega

/-- Catalog of the C1 witness scenario. -/
def c1wCat : Catalog := [⟨"001", "Apple", 1.50, 100⟩, ⟨"004", "Milk", 2.50, 50⟩]

/-- Committed sale of the C1 witness scenario: 3 Apples at 1.50. -/
def c1wSale : Sale := ⟨"S2", [⟨"001", 3, 4.5⟩], 4.5, 0.45, 4.95, "Cash", true⟩

/-- Catalog after the C1 witness commit: Apple stock drops 100 to 97. -/
def c1wAfter : Catalog := [⟨"001", "Apple", 1.50, 97⟩, ⟨"004", "Milk", 2.50, 50⟩]

/-- Sales ledger after the C1 witness commit. -/
def c1wLedger : SalesLedger := ledgerInsert [] "S2" (c1wSale.to_dict c1wAfter)

lemma c1w_run :
    process_sale c1wCat [] "S2" [SaleInput.add "001" 3, SaleInput.done] "Cash" [10]
      = (some c1wSale, c1wAfter, c1wLedger) := by
  norm_num [process_sale, collectItems, paymentLoop, Sale.process_payment,
    Sale.init, Sale.add_item, Sale.calculate_totals, SaleItem.make,
    get_product_by_id, commitStock, decrementStock, c1wCat, c1wSale, c1wAfter,
    c1wLedger, List.find?, Sale.to_dict, SaleItem.record, ledgerInsert]
  decide

/-- C1 witness: a committed single-line sale of 3 Apples leaves Apple
stock at 100 - 3 = 97, which is non-negative. -/
theorem C1_amended_witness :
    0 ≤ stockOf c1wAfter "001"
    ∧ stockOf c1wAfter "001" = stockOf c1wCat "001" - saleQty c1wSale.items "001" := by
  have h := C1_amended c1wCat [] "S2" [SaleInput.add "001" 3, SaleInput.done]
    "Cash" [10] c1wSale c1wAfter c1wLedger c1w_run
  exact ⟨h.2.2 (by decide) (by decide) "001", h.2.1 "001"⟩

/-- C6: a Sale with zero line items is discarded: when the collection
phase hands back an empty sale the workflow returns the no-sale signal
with catalog and ledger untouched, and whenever the workflow does
return a sale as successful, that sale has at least one line item. -/
theorem C6_empty_sale_discarded (cat : Catalog) (ledger : SalesLedger)
    (sale_id m : String) (script : List SaleInput) (amounts : List ℚ) :
    (∀ s, collectItems cat script (Sale.init sale_id) = some s → s.items = [] →
        process_sale cat ledger sale_id script m amounts = (none, cat, ledger))
    ∧ (∀ sale cat1 led1,
        process_sale cat ledger sale_id script m amounts = (some sale, cat1, led1) →
        sale.items ≠ []) := by
  constructor
  · intro s hc hnil
    simp [process_sale, hc, hnil]
  · intro sale cat1 led1 h
    obtain ⟨s0, c, hc, hemp, hp, _, _⟩ := process_sale_some h
    rw [paymentLoop_items amounts s0 m sale c hp]
    intro hz
    rw [hz] at hemp
    simp at hemp

/-- C6 witness: finishing the collection loop immediately leaves the
sale empty and the workflow returns no sale with the catalog and the
ledger unchanged; the successfully committed concrete sale of the C1
scenario has a non-empty item list. -/
theorem C6_empty_sale_discarded_witness :
    process_sale sample_products [] "S3" [SaleInput.done] "Cash" []
      = (none, sample_products, [])
    ∧ c1wSale.items ≠ [] :=
  ⟨(C6_empty_sale_discarded sample_products [] "S3" "Cash" [SaleInput.done] []).1
      (Sale.init "S3") rfl rfl,
    (C6_empty_sale_discarded c1wCat [] "S2" "Cash"
        [SaleInput.add "001" 3, SaleInput.done] [10]).2
      c1wSale c1wAfter c1wLedger c1w_run⟩

/-- Scripts free of the two loop-terminating sentinels: every input
before the cancel under scrutiny is an add attempt (valid or not). -/
def noTerminator (script : List SaleInput) : Prop :=
  ∀ e ∈ script, e ≠ SaleInput.done ∧ e ≠ SaleInput.cancel

lemma collectItems_cancel (cat : Catalog) :
    ∀ (pre : List SaleInput), noTerminator pre →
      ∀ (rest : List SaleInput) (s : Sale),
        collectItems cat (pre ++ SaleInput.cancel :: rest) s = none := by
  intro pre
  induction pre with
  | nil => intro _ rest s; rfl
  | cons e pre1 ih =>
    intro hpre rest s
    have he := hpre e (List.mem_cons_self e pre1)
    have hpre1 : noTerminator pre1 := fun x hx => hpre x (List.mem_cons_of_mem e hx)
    cases e with
    | done => exact absurd rfl he.1
    | cancel => exact absurd rfl he.2
    | add pid qty =>
      rw [List.cons_append]
      simp only [collectItems]
      split
      · exact ih hpre1 rest s
      · split
        · exact ih hpre1 rest s
        · split
          · exact ih hpre1 rest s
          · exact ih hpre1 rest _

/-- C7: a cancel sentinel reached at any point of item collection — in
particular after any number of accepted items — makes the workflow
return the no-sale signal with the catalog (hence every stock count)
and the sales ledger exactly as they were when the workflow started;
nothing is committed, so the durable files are rewritten from unchanged
state or not at all. -/
theorem C7_cancel_preserves_state (cat : Catalog) (ledger : SalesLedger)
    (sale_id m : String) (pre rest : List SaleInput) (amounts : List ℚ)
    (hpre : noTerminator pre) :
    process_sale cat ledger sale_id (pre ++ SaleInput.cancel :: rest) m amounts
      = (none, cat, ledger) := by
  have h := collectItems_cancel cat pre hpre rest (Sale.init sale_id)
  simp [process_sale, h]

/-- C7 witness: canceling after two add inputs leaves the seeded catalog
and the empty ledger untouched and produces no sale. -/
theorem C7_cancel_preserves_state_witness :
    process_sale sample_products [] "S4"
      ([SaleInput.add "001" 2, SaleInput.add "002" 3] ++ SaleInput.cancel :: [])
      "Cash" [] = (none, sample_products, []) :=
  C7_cancel_preserves_state sample_products [] "S4" "Cash"
    [SaleInput.add "001" 2, SaleInput.add "002" 3] [] []
    (by unfold noTerminator; decide)

/-! Helper lemmas for the spec-modelled Return Workflow. -/

/-- Facts the return collection loop guarantees for every accepted
line: quantity at least 1, a product present in the catalog, and an
original-sale line for the same product whose quantity bounds the
returned quantity. -/
def validReturnItem (cat : Catalog) (orig : SaleRecord) (it : ReturnItem) : Prop :=
  1 ≤ it.quantity ∧ (get_product_by_id cat it.product_id).isSome = true
    ∧ ∃ line ∈ orig.items, line.product_id = it.product_id
        ∧ it.quantity ≤ line.quantity

lemma collectReturnItems_valid (cat : Catalog) (orig : SaleRecord)
    (script : List ReturnInput) :
    ∀ (r0 r : Return),
      collectReturnItems cat orig script r0 = some r →
      (∀ it ∈ r0.items, validReturnItem cat orig it) →
      ∀ it ∈ r.items, validReturnItem cat orig it := by
  induction script with
  | nil => intro r0 r h; simp [collectReturnItems] at h
  | cons e rest ih =>
    intro r0 r h h0
    cases e with
    | cancel => simp [collectReturnItems] at h
    | finish =>
      simp only [collectReturnItems] at h
      split at h
      · simp at h
      · simp only [Option.some.injEq] at h
        subst h
        exact h0
    | pick i qty reason =>
      simp only [collectReturnItems] at h
      split at h
      · exact ih _ _ h h0
      · split at h
        · exact ih _ _ h h0
        · rename_i line hline
          split at h
          · exact ih _ _ h h0
          · rename_i p hg
            split at h
            · exact ih _ _ h h0
            · rename_i hq1
              split at h
              · exact ih _ _ h h0
              · rename_i hq2
                refine ih _ _ h ?_
                intro it hit
                obtain ⟨hi2, _⟩ := return_add_item_refund r0 p qty
                  (if reason = "" then defaultReason else reason)
                rw [hi2] at hit
                rcases List.mem_append.mp hit with hold | hnew
                · exact h0 it hold
                · have hmk := List.mem_singleton.mp hnew
                  subst hmk
                  have hid : p.product_id = line.product_id := get_product_id hg
                  have hpid : (ReturnItem.make p qty
                      (if reason = "" then defaultReason else reason)).product_id
                        = p.product_id := rfl
                  refine ⟨not_lt.mp hq1, ?_, line, List.get?_mem hline, ?_, ?_⟩
                  · rw [hpid, hid, hg]
                    rfl
                  · rw [hpid, hid]
                  · exact not_lt.mp hq2

lemma process_return_some {cat : Catalog} {sl : SalesLedger} {rl : ReturnsLedger}
    {return_id sale_id : String} {script : List ReturnInput} {confirm : Bool}
    {r : Return} {cat1 : Catalog} {rl1 : ReturnsLedger}
    (h : process_return cat sl rl return_id sale_id script confirm
      = (some r, cat1, rl1)) :
    ∃ kv, sl.find? (fun e => e.1 == sale_id) = some kv
      ∧ collectReturnItems cat kv.2 script (Return.init return_id sale_id) = some r
      ∧ confirm = true
      ∧ cat1 = commitReturnStock cat r.items
      ∧ rl1 = ledgerInsert rl r.return_id (r.to_dict cat1) := by
  unfold process_return at h
  split at h
  · simp at h
  · split at h
    · simp at h
    · rename_i kv hkv
      split at h
      · simp at h
      · rename_i r0 hcol
        split at h
        · rename_i hconf
          simp only [Prod.mk.injEq, Option.some.injEq] at h
          obtain ⟨h1, h2, h3⟩ := h
          subst h1
          exact ⟨kv, hkv, hcol, hconf, h2.symm, by rw [← h3, h2]⟩
        · simp at h

/-- C2: the Return Workflow, modelled from the spec because its
implementation is not under src (main.py invokes a process_return
method that src does not define, and the only return entry point in
services.py is an under-development stub returning None): with an empty
sales ledger it fails immediately with no state change; whenever it
settles a Return against an existing Sale, every accepted line has a
quantity between 1 and the quantity of a matching original line, each
referenced product's stock grows by the total returned quantity, and
the Return record is persisted into the returns ledger. -/
theorem C2_return_workflow (cat : Catalog) (sl : SalesLedger) (rl : ReturnsLedger)
    (return_id sale_id : String) (script : List ReturnInput) (confirm : Bool) :
    (sl = [] →
      process_return cat sl rl return_id sale_id script confirm = (none, cat, rl))
    ∧ (∀ r cat1 rl1,
        process_return cat sl rl return_id sale_id script confirm
          = (some r, cat1, rl1) →
        ∃ kv, sl.find? (fun e => e.1 == sale_id) = some kv
          ∧ (∀ it ∈ r.items, 1 ≤ it.quantity
              ∧ ∃ line ∈ kv.2.items, line.product_id = it.product_id
                  ∧ it.quantity ≤ line.quantity)
          ∧ (∀ pid, stockOf cat1 pid = stockOf cat pid + returnQty r.items pid)
          ∧ rl1 = ledgerInsert rl r.return_id (r.to_dict cat1)) := by
  constructor
  · intro hnil
    subst hnil
    rfl
  · intro r cat1 rl1 h
    obtain ⟨kv, hkv, hcol, hconf, hcat, hrl⟩ := process_return_some h
    have hval : ∀ it ∈ r.items, validReturnItem cat kv.2 it :=
      collectReturnItems_valid cat kv.2 script _ _ hcol
        (by intro it hit; simp [Return.init] at hit)
    refine ⟨kv, hkv, fun it hit => ⟨(hval it hit).1, (hval it hit).2.2⟩, ?_, hrl⟩
    intro pid
    rw [hcat]
    exact stockOf_commitReturnStock r.items cat
      (fun it hit => by rw [(hval it hit).2.1]) pid

/-- Catalog of the C2 scenario: Apple at stock 97 after an earlier sale
of 3. -/
def c2Cat : Catalog := [⟨"001", "Apple", 5, 97⟩]

/-- Persisted original sale of the C2 scenario: one line of 3 Apples. -/
def c2Orig : SaleRecord := ⟨"S1", [⟨"001", "Apple", 3, 5, 15⟩], 15, 1.5, 16.5, "Cash", true⟩

/-- Sales ledger of the C2 scenario. -/
def c2Sales : SalesLedger := [("S1", c2Orig)]

/-- Settled return of the C2 scenario: 2 of the 3 Apples come back. -/
def c2Ret : Return := ⟨"R1", "S1", [⟨"001", 2, defaultReason, 10⟩], 10⟩

/-- Catalog after the C2 return settles: Apple stock 97 + 2 = 99. -/
def c2After : Catalog := [⟨"001", "Apple", 5, 99⟩]

/-- Returns ledger after the C2 return settles. -/
def c2RL : ReturnsLedger := ledgerInsert [] "R1" (c2Ret.to_dict c2After)

/-- C2 witness: with an empty sales ledger the workflow fails with no
state change, and settling the concrete 2-Apple return against the
recorded 3-Apple sale raises Apple stock by the returned quantity. -/
theorem C2_return_workflow_witness :
    process_return c2Cat [] [] "R1" "S1"
        [ReturnInput.pick 1 2 "", ReturnInput.finish] true = (none, c2Cat, [])
    ∧ stockOf c2After "001" = stockOf c2Cat "001" + returnQty c2Ret.items "001" := by
  constructor
  · exact (C2_return_workflow c2Cat [] [] "R1" "S1"
      [ReturnInput.pick 1 2 "", ReturnInput.finish] true).1 rfl
  · have h := (C2_return_workflow c2Cat c2Sales [] "R1" "S1"
        [ReturnInput.pick 1 2 "", ReturnInput.finish] true).2 c2Ret c2After c2RL
      (by norm_num [process_return, collectReturnItems, Return.init, Return.add_item,
        ReturnItem.make, get_product_by_id, c2Cat, c2Orig, c2Sales, c2Ret, c2After,
        c2RL, commitReturnStock, incrementStock, List.find?, Return.to_dict,
        ReturnItem.record, ledgerInsert, defaultReason])
    obtain ⟨kv, hkv, hbound, hstock, hrl⟩ := h
    exact hstock "001"

end POS
